import Mathlib

/-!
Verification of the dspy-optimizer repository core: a shallow embedding of
the prompt-patch merge algorithm (`strategies/merger/block_based.py`), the
strategy registry (`strategies/registry.py`), the common scorers
(`strategies/scoring/common.py`), the validation strategies
(`strategies/validation/*.py`), and the orchestrator loop
(`optimizer.py`, `PromptOptimizer.optimize`), together with theorems
settling the frozen claims about them.

Python strings are modelled as `List Char`; Python floats are modelled as
exact rationals `ℚ`; Python exceptions are modelled with `Except`, the
error payload being the exception message.
-/

namespace DspyOpt

/-- Python strings are modelled as lists of characters. -/
abbrev Str := List Char

/-- Characters treated as whitespace by Python's `str.strip` / `re` `\s`
(ASCII range, which is all the repository's prompts use). -/
def pyWS (c : Char) : Bool :=
  c == ' ' || c == '\t' || c == '\n' || c == '\r' || c == '\x0b' || c == '\x0c'

/-- Python `str.lstrip()`. -/
def lstrip (s : Str) : Str := s.dropWhile pyWS

/-- Python `str.rstrip()`. -/
def rstrip (s : Str) : Str := (s.reverse.dropWhile pyWS).reverse

/-- Python `str.strip()`. -/
def strip (s : Str) : Str := lstrip (rstrip s)

/-- Length of the current line: number of characters before the next
newline (or the end of the string).  This is what `.*$` under
`re.MULTILINE` consumes from a line-start position. -/
def lineLen (s : Str) : Nat := (s.takeWhile (fun c => !(c == '\n'))).length

/-- Auxiliary scan for `re.compile(f"^{re.escape(target)}.*$", re.MULTILINE)
.search(base)`: `rem` is the suffix of the text starting at absolute
position `i`, which is a line start.  If `target` occurs at this line
start, the regex matches and `match.end()` is the end of the line in which
the match ends; otherwise the scan moves to the next line start.  The fuel
argument is for structural recursion and is chosen large enough at the
wrapper. -/
def findHeaderAux (target : Str) : Nat → Str → Nat → Option Nat
  | 0, _, _ => none
  | fuel + 1, rem, i =>
    if target.isPrefixOf rem then
      some (i + target.length + lineLen (rem.drop target.length))
    else
      let k := lineLen rem
      if k < rem.length then findHeaderAux target fuel (rem.drop (k + 1)) (i + k + 1)
      else none

/-- `match.end()` of the first (top-to-bottom) line of `s` that starts with
`target`, or `none` when the pattern does not occur
(`block_start_regex.search(base_prompt)` in `BlockBasedMerger.__call__`). -/
def findHeader (target s : Str) : Option Nat := findHeaderAux target (s.length + 1) s 0

/-- Whether position `j` of `s` starts a match of `###\s` (three hashes
followed by one whitespace character). -/
def isBlockHeaderAt (s : Str) (j : Nat) : Bool :=
  match s.drop j with
  | '#' :: '#' :: '#' :: c :: _ => pyWS c
  | _ => false

/-- Whether position `j` of `s` is a line start: the beginning of the
string or a position just after a newline (where `^` matches under
`re.MULTILINE`). -/
def isLineStart (s : Str) (j : Nat) : Bool :=
  j == 0 ||
    (match s.get? (j - 1) with
     | some c => c == '\n'
     | none => false)

/-- Auxiliary scan for `re.compile(r"^###\s", re.MULTILINE).search(base,
start_pos)`: the least position `j' ≥ j` that is a line start and begins a
`###\s` match; returns `match.start()`. -/
def findNextBlockAux (s : Str) : Nat → Nat → Option Nat
  | 0, _ => none
  | fuel + 1, j =>
    if j < s.length then
      if isLineStart s j && isBlockHeaderAt s j then some j
      else findNextBlockAux s fuel (j + 1)
    else none

/-- `match.start()` of the next generic block header at or after position
`j`, or `none` when no further block header exists. -/
def findNextBlock (s : Str) (j : Nat) : Option Nat := findNextBlockAux s (s.length + 1 - j) j

/-- `PatchOperation` enumeration from `models.py`. -/
inductive PatchOperation
  | APPEND
  | REPLACE
deriving DecidableEq

/-- `PatchOperation.value`: the string value of each enum member. -/
def PatchOperation.value : PatchOperation → Str
  | .APPEND => "append".toList
  | .REPLACE => "replace".toList

/-- `PatchOperation(s)` in Python: value lookup in the enum; raises
`ValueError` on any other string. -/
def PatchOperation.ofString (s : Str) : Except Str PatchOperation :=
  if s = "append".toList then .ok .APPEND
  else if s = "replace".toList then .ok .REPLACE
  else .error ("'".toList ++ s ++ "' is not a valid PatchOperation".toList)

/-- `PromptPatch` from `models.py`: an immutable triple. -/
structure PromptPatch where
  target_block : Str
  operation : PatchOperation
  content : Str

/-- `BlockBasedMerger.__call__` from `strategies/merger/block_based.py`:
locate the target block header, compute the block end (next `###\s` header
or end of text), then splice the patch content in by APPEND or REPLACE and
strip the result.  The `ValueError` on a missing block is the error case. -/
def BlockBasedMerger.call (base_prompt : Str) (patch : PromptPatch) : Except Str Str :=
  match findHeader patch.target_block base_prompt with
  | none =>
    .error ("Target block '".toList ++ patch.target_block ++ "' not found in prompt.".toList)
  | some start_pos =>
    let end_pos := (findNextBlock base_prompt start_pos).getD base_prompt.length
    match patch.operation with
    | .APPEND =>
      .ok (strip (rstrip (base_prompt.take end_pos) ++
        '\n' :: (patch.content ++ '\n' :: base_prompt.drop end_pos)))
    | .REPLACE =>
      .ok (strip (base_prompt.take start_pos ++
        '\n' :: (patch.content ++ '\n' :: base_prompt.drop end_pos)))


theorem dropWhile_append_of_ex {p : Char → Bool} {A : Str} (B : Str)
    (h : ∃ a ∈ A, p a = false) :
    (A ++ B).dropWhile p = A.dropWhile p ++ B := by
  induction A with
  | nil => obtain ⟨a, ha, _⟩ := h; exact absurd ha (List.not_mem_nil a)
  | cons x t ih =>
    by_cases hx : p x = true
    · obtain ⟨a, ha, hpa⟩ := h
      have hat : a ∈ t := by
        rcases List.mem_cons.mp ha with rfl | h'
        · rw [hx] at hpa; exact absurd hpa (by simp)
        · exact h'
      simp only [List.cons_append, List.dropWhile_cons, hx, if_true]
      exact ih ⟨a, hat, hpa⟩
    · simp only [Bool.not_eq_true] at hx
      simp [List.dropWhile_cons, hx]

theorem mem_dropWhile_of_not {p : Char → Bool} {l : Str} {a : Char}
    (ha : a ∈ l) (hpa : p a = false) : a ∈ l.dropWhile p := by
  induction l with
  | nil => exact absurd ha (List.not_mem_nil a)
  | cons x t ih =>
    by_cases hx : p x = true
    · have hat : a ∈ t := by
        rcases List.mem_cons.mp ha with rfl | h'
        · rw [hx] at hpa; exact absurd hpa (by simp)
        · exact h'
      simpa [List.dropWhile_cons, hx] using ih hat
    · simp only [Bool.not_eq_true] at hx
      simpa [List.dropWhile_cons, hx] using ha

theorem rstrip_append_ws (l : Str) (c : Char) (hc : pyWS c = true) :
    rstrip (l ++ [c]) = rstrip l := by
  unfold rstrip
  rw [List.reverse_append]
  simp [List.dropWhile_cons, hc]

theorem getLast?_append_right {α : Type} (A B : List α) (hB : B ≠ []) :
    (A ++ B).getLast? = B.getLast? := by
  cases hBr : B.reverse with
  | nil => exact absurd (List.reverse_eq_nil_iff.mp hBr) hB
  | cons x t =>
    rw [← List.head?_reverse, ← List.head?_reverse, List.reverse_append, hBr]
    simp

theorem getLast?_cons_append {α : Type} (a b : α) (A : List α) :
    (a :: (A ++ [b])).getLast? = some b := by
  have hsplit : a :: (A ++ [b]) = (a :: A) ++ [b] := rfl
  rw [hsplit, getLast?_append_right _ _ (by simp)]
  rfl

theorem rstrip_eq_self_of_getLast {l : Str} {c : Char}
    (h : l.getLast? = some c) (hc : pyWS c = false) : rstrip l = l := by
  unfold rstrip
  cases lr : l.reverse with
  | nil =>
    have : l = [] := List.reverse_eq_nil_iff.mp lr
    subst this; rfl
  | cons x t =>
    have hx : x = c := by
      have := List.head?_reverse l
      rw [lr] at this
      simp only [List.head?] at this
      rw [h] at this
      exact (Option.some.inj this)
    subst hx
    rw [List.dropWhile_cons, hc]
    simp [← lr]

theorem exists_not_ws_rstrip {l : Str} (h : ∃ a ∈ l, pyWS a = false) :
    ∃ a ∈ rstrip l, pyWS a = false := by
  obtain ⟨a, ha, hpa⟩ := h
  refine ⟨a, ?_, hpa⟩
  unfold rstrip
  rw [List.mem_reverse]
  exact mem_dropWhile_of_not (List.mem_reverse.mpr ha) hpa

theorem strip_append_newline (l : Str) : strip (l ++ ['\n']) = strip l := by
  unfold strip
  rw [rstrip_append_ws l '\n' (by decide)]

/-- C6: a patch whose `target_block` matches no line of the prompt makes
`BlockBasedMerger.__call__` raise the block-not-found `ValueError`, whose
message names the missing block; no modified prompt is produced on this
path (the merger is a pure function of the base prompt, which is left
untouched), and the block is never silently created. -/
theorem c6_unknown_block_fails (base_prompt : Str) (patch : PromptPatch)
    (h : findHeader patch.target_block base_prompt = none) :
    BlockBasedMerger.call base_prompt patch =
      .error ("Target block '".toList ++ patch.target_block ++ "' not found in prompt.".toList) ∧
    ∀ r : Str, BlockBasedMerger.call base_prompt patch ≠ .ok r := by
  constructor
  · unfold BlockBasedMerger.call
    rw [h]
  · intro r hr
    unfold BlockBasedMerger.call at hr
    rw [h] at hr
    exact Except.noConfusion hr

theorem c6_witness :
    BlockBasedMerger.call "### Heuristics\n- H1".toList
        ⟨"### NonExistent".toList, .APPEND, "x".toList⟩ =
      .error ("Target block '".toList ++ "### NonExistent".toList ++ "' not found in prompt.".toList) ∧
    ∀ r : Str, BlockBasedMerger.call "### Heuristics\n- H1".toList
        ⟨"### NonExistent".toList, .APPEND, "x".toList⟩ ≠ .ok r :=
  c6_unknown_block_fails _ _ (by decide)

/-- C5: for the scenario base prompt, appending `- H2` to `### Heuristics`
yields exactly the prompt whose Heuristics section lists `- H1` then
`- H2` and whose `### Examples` section still holds only `- E1`; and in
general, appending content (ending in a non-whitespace character) to the
last block `B` of a prompt yields the trimmed prompt followed by a newline
and the content — the content sits after `B`'s existing body and ends the
prompt, with no block after it. -/
theorem c5_append_order :
    (BlockBasedMerger.call "### Heuristics\n- H1\n\n### Examples\n- E1".toList
        ⟨"### Heuristics".toList, .APPEND, "- H2".toList⟩ =
      .ok ("### Heuristics\n- H1\n- H2\n".toList ++ "### Examples\n- E1".toList)) ∧
    (∀ (b target content : Str) (sp : Nat) (c : Char),
      findHeader target b = some sp →
      findNextBlock b sp = none →
      (∃ a ∈ b, pyWS a = false) →
      content.getLast? = some c →
      pyWS c = false →
      BlockBasedMerger.call b ⟨target, .APPEND, content⟩ =
        .ok (strip b ++ '\n' :: content)) := by
  constructor
  · rfl
  · intro b target content sp c h1 h2 hb hlast hc
    unfold BlockBasedMerger.call
    rw [h1]
    simp only [h2, Option.getD_none, List.take_length, List.drop_length]
    have hcne : content ≠ [] := by
      intro h; rw [h] at hlast; exact Option.noConfusion hlast
    have hassoc : rstrip b ++ '\n' :: (content ++ ['\n']) =
        (rstrip b ++ '\n' :: content) ++ ['\n'] := by simp
    rw [hassoc]
    unfold strip
    rw [rstrip_append_ws _ '\n' (by decide)]
    have hY : rstrip (rstrip b ++ '\n' :: content) = rstrip b ++ '\n' :: content := by
      apply rstrip_eq_self_of_getLast (c := c) _ hc
      rw [getLast?_append_right _ _ (by simp)]
      rw [show ('\n' :: content) = ['\n'] ++ content from rfl]
      rw [getLast?_append_right _ _ hcne]
      exact hlast
    rw [hY]
    unfold lstrip
    rw [dropWhile_append_of_ex _ (exists_not_ws_rstrip hb)]

theorem c5_witness :
    BlockBasedMerger.call "### Heuristics\n- H1\n\n### Examples\n- E1".toList
        ⟨"### Examples".toList, .APPEND, "- E2".toList⟩ =
      .ok (strip "### Heuristics\n- H1\n\n### Examples\n- E1".toList ++ '\n' :: "- E2".toList) :=
  c5_append_order.2 _ _ _ 33 '2' (by decide) (by decide)
    ⟨'#', by decide, by decide⟩ (by decide) (by decide)

/-- Scenario base prompt for the C4 counterexample. -/
def c4Base : Str := "### Heuristics\n- H1\n\n### Examples\n- E1".toList

/-- C4 counterexample: in the scenario prompt the `### Heuristics` block
(body `- H1`, located at positions 14-21) is replaced by its own
whitespace-trimmed body, and the result drops the blank line separating it
from `### Examples`, so it differs from the (already trimmed) original. -/
theorem c4_counterexample :
    findHeader "### Heuristics".toList c4Base = some 14 ∧
    strip ((c4Base.drop 14).take 7) = "- H1".toList ∧
    BlockBasedMerger.call c4Base ⟨"### Heuristics".toList, .REPLACE, "- H1".toList⟩ =
      .ok "### Heuristics\n- H1\n### Examples\n- E1".toList ∧
    "### Heuristics\n- H1\n### Examples\n- E1".toList ≠ strip c4Base := by
  refine ⟨by decide, by decide, by rfl, by decide⟩

/-- C4 (amended): replacing a block with its own whitespace-trimmed body
yields, after trimming, the original prompt when the target block is the
prompt's last block and its body is exactly one newline followed by the
trimmed content; when another block follows, the merger collapses the
whitespace between the body and the next header to a single newline, so
equality with the original can fail (see the counterexample). -/
theorem c4_replace_noop_amended (b target : Str) (sp : Nat)
    (h1 : findHeader target b = some sp)
    (h2 : findNextBlock b sp = none)
    (h3 : b.drop sp = '\n' :: strip (b.drop sp)) :
    BlockBasedMerger.call b ⟨target, .REPLACE, strip (b.drop sp)⟩ = .ok (strip b) := by
  unfold BlockBasedMerger.call
  rw [h1]
  simp only [h2, Option.getD_none, List.drop_length]
  generalize hX : strip (List.drop sp b) = X at h3 ⊢
  have hsplice : List.take sp b ++ '\n' :: (X ++ ['\n']) =
      (List.take sp b ++ List.drop sp b) ++ ['\n'] := by
    rw [h3]
    simp
  rw [hsplice, List.take_append_drop, strip_append_newline]

theorem c4_witness :
    BlockBasedMerger.call "### H\n- H1".toList
        ⟨"### H".toList, .REPLACE, strip (("### H\n- H1".toList).drop 5)⟩ =
      .ok (strip "### H\n- H1".toList) :=
  c4_replace_noop_amended _ _ 5 (by decide) (by decide) (by decide)


/-- `Registry` from `strategies/registry.py`: `_name` and the `_registry`
dict, modelled as an association list in insertion order. -/
structure Registry (α : Type) where
  name : Str
  registry : List (Str × α)

/-- Body of the decorator returned by `Registry.register(name)`, applied to
a class `cls`: raises `ValueError` when `name` is already bound — before
any mutation — otherwise binds `name` to `cls`.  The result pairs the
outcome with the registry state after the call. -/
def Registry.register {α : Type} (r : Registry α) (name : Str) (cls : α) :
    Except Str Unit × Registry α :=
  if (r.registry.lookup name).isSome then
    (.error ("'".toList ++ name ++ "' is already registered in '".toList ++
      r.name ++ "'.".toList), r)
  else
    (.ok (), ⟨r.name, r.registry ++ [(name, cls)]⟩)

/-- `Registry.get`: dict lookup, raising `KeyError` naming the registry and
the requested name when the name is absent. -/
def Registry.get {α : Type} (r : Registry α) (name : Str) : Except Str α :=
  match r.registry.lookup name with
  | some cls => .ok cls
  | none =>
    .error ("'".toList ++ name ++ "' not found in '".toList ++ r.name ++ "' registry.".toList)

theorem lookup_append_single {α : Type} (l : List (Str × α)) (n : Str) (v : α)
    (h : l.lookup n = none) : (l ++ [(n, v)]).lookup n = some v := by
  induction l with
  | nil => simp [List.lookup]
  | cons x t ih =>
    obtain ⟨k, w⟩ := x
    simp only [List.lookup] at h ⊢
    cases hk : (n == k) with
    | true => rw [hk] at h; exact Option.noConfusion h
    | false => rw [hk] at h; exact ih h

/-- C7: in one `Registry`, registering an already-bound name raises the
duplicate-registration `ValueError` and leaves the registry unchanged, so
the first registration remains retrievable by `get`; and `get` on an
unbound name raises a `KeyError` whose message names both the registry's
identity and the requested name. -/
theorem c7_registry_uniqueness {α : Type} (r : Registry α) (n : Str) (v₁ v₂ : α)
    (h : r.registry.lookup n = none) :
    ((r.register n v₁).1 = .ok () ∧
     ((r.register n v₁).2.register n v₂).1 =
       .error ("'".toList ++ n ++ "' is already registered in '".toList ++
         r.name ++ "'.".toList) ∧
     ((r.register n v₁).2.register n v₂).2 = (r.register n v₁).2 ∧
     (((r.register n v₁).2.register n v₂).2.get n = .ok v₁) ∧
     r.get n = .error ("'".toList ++ n ++ "' not found in '".toList ++
       r.name ++ "' registry.".toList)) := by
  have h1 : (r.register n v₁) = (.ok (), ⟨r.name, r.registry ++ [(n, v₁)]⟩) := by
    unfold Registry.register
    rw [h]
    rfl
  have hl : (r.registry ++ [(n, v₁)]).lookup n = some v₁ := lookup_append_single _ _ _ h
  refine ⟨by rw [h1], ?_, ?_, ?_, ?_⟩
  · rw [h1]
    unfold Registry.register
    simp [hl]
  · rw [h1]
    unfold Registry.register
    simp [hl]
  · rw [h1]
    unfold Registry.register
    simp only [hl, Option.isSome_some, if_true]
    unfold Registry.get
    simp [hl]
  · unfold Registry.get
    rw [h]

theorem c7_witness :
    (((Registry.mk "mergers".toList ([] : List (Str × Nat))).register "block_based".toList 1).1 =
      .ok ()) ∧
    ((((Registry.mk "mergers".toList ([] : List (Str × Nat))).register "block_based".toList 1).2.register
        "block_based".toList 2).1 =
      .error ("'".toList ++ "block_based".toList ++ "' is already registered in '".toList ++
        "mergers".toList ++ "'.".toList)) ∧
    ((((Registry.mk "mergers".toList ([] : List (Str × Nat))).register "block_based".toList 1).2.register
        "block_based".toList 2).2 =
      ((Registry.mk "mergers".toList ([] : List (Str × Nat))).register "block_based".toList 1).2) ∧
    (((((Registry.mk "mergers".toList ([] : List (Str × Nat))).register "block_based".toList 1).2.register
        "block_based".toList 2).2.get "block_based".toList) = .ok 1) ∧
    ((Registry.mk "mergers".toList ([] : List (Str × Nat))).get "block_based".toList =
      .error ("'".toList ++ "block_based".toList ++ "' not found in '".toList ++
        "mergers".toList ++ "' registry.".toList)) :=
  c7_registry_uniqueness (Registry.mk "mergers".toList ([] : List (Str × Nat)))
    "block_based".toList 1 2 (by rfl)


/-- `dspy.Example`, modelled by the partition its `inputs()` declaration
induces: the declared input fields and the remaining (gold output) fields,
each an ordered name-to-value mapping with string values (`str(value)` is
the identity in this model). -/
structure Example where
  inputs : List (Str × Str)
  outputs : List (Str × Str)

/-- `dspy.Prediction`: produced output fields plus an optional free-text
reasoning trace. -/
structure Prediction where
  fields : List (Str × Str)
  reasoning : Str

/-- `exact_match_scorer` from `strategies/scoring/common.py`: compare the
first output field of the example with the same field of the prediction as
strings; every failure path of the two `try` blocks (no output fields,
missing prediction key) returns `False`. -/
def exact_match_scorer (ex : Example) (prediction : Prediction) : Bool :=
  match ex.outputs with
  | [] => false
  | (output_key, expected_value) :: _ =>
    match prediction.fields.lookup output_key with
    | none => false
    | some predicted_value => expected_value == predicted_value

/-- Digit-string to number, as done by `float` on the digit runs. -/
def natOfDigits (l : Str) : Nat := l.foldl (fun a c => a * 10 + (c.toNat - '0'.toNat)) 0

/-- Python `float(s)` on an unsigned plain decimal literal: `digits`,
`digits.digits?` or `.digits`.  The value is returned as a pair
(mantissa, number of fractional digits), i.e. mantissa / 10 ^ scale;
`none` models `ValueError`.  (The exponent, `inf`/`nan` and `_` separator
forms of the Python float grammar never occur in this repository's data
and are not modelled.) -/
def parseUnsigned (s : Str) : Option (Nat × Nat) :=
  let intPart := s.takeWhile Char.isDigit
  let rest := s.dropWhile Char.isDigit
  match rest with
  | [] => if intPart.isEmpty then none else some (natOfDigits intPart, 0)
  | '.' :: frac =>
    if frac.all Char.isDigit && !(intPart.isEmpty && frac.isEmpty) then
      some (natOfDigits (intPart ++ frac), frac.length)
    else none
  | _ => none

/-- Python `float(s)`: optional sign then an unsigned decimal literal. -/
def pyFloat (s : Str) : Option (Int × Nat) :=
  match s with
  | '+' :: t => (parseUnsigned t).map fun p => ((p.1 : Int), p.2)
  | '-' :: t => (parseUnsigned t).map fun p => (-(p.1 : Int), p.2)
  | t => (parseUnsigned t).map fun p => ((p.1 : Int), p.2)

/-- The exact rational denoted by a parsed decimal (mantissa, scale). -/
def decimalToQ (p : Int × Nat) : ℚ := (p.1 : ℚ) / (10 : ℚ) ^ p.2

/-- `parse_numeric` inside `numeric_scorer`: `str(value).strip()`, then
`s.replace(",", "")` removing every comma, then `s.replace(",", ".")`
(kept from the source; a no-op, since every comma was already removed),
then `float(s)`. -/
def parse_numeric (value : Str) : Option (Int × Nat) :=
  let s := strip value
  let s := s.filter (fun c => !(c == ','))
  let s := s.map (fun c => if c == ',' then '.' else c)
  pyFloat s

/-- `math.isclose(a, b, rel_tol)` with the default `abs_tol = 0.0`,
modelled over exact rationals. -/
def isclose (a b rel_tol : ℚ) : Bool :=
  decide (|a - b| ≤ rel_tol * max |a| |b|)

/-- `numeric_scorer` from `strategies/scoring/common.py`: parse the first
output field of example and prediction with `parse_numeric` and compare
with `math.isclose`; every failure path of the `try` blocks (no output
fields, missing prediction key, unparseable value) returns `False`. -/
def numeric_scorer (ex : Example) (prediction : Prediction)
    (tolerance : ℚ) : Bool :=
  match ex.outputs with
  | [] => false
  | (output_key, expected_value) :: _ =>
    match prediction.fields.lookup output_key with
    | none => false
    | some predicted_value =>
      match parse_numeric expected_value, parse_numeric predicted_value with
      | some a, some b => isclose (decimalToQ a) (decimalToQ b) tolerance
      | _, _ => false

/-- C9: the numeric scorer does strip the thousands separator, so gold
`1234.56` against predicted `"1,234.56"` accepts at tolerance `1e-6`; but a
value written with a decimal comma is NOT parsed with the comma as the
decimal separator: `parse_numeric` first removes every comma, so `"3,14"`
is read as `314`, not `3.14`, and the scorer rejects gold `3.14` against
predicted `"3,14"` — contradicting the function's own comments about
handling decimal commas. -/
theorem c9_numeric_scorer_comma :
    (numeric_scorer ⟨[("question".toList, "q".toList)], [("amount".toList, "1234.56".toList)]⟩
      ⟨[("amount".toList, "1,234.56".toList)], []⟩ (1 / 1000000) = true) ∧
    (parse_numeric "3,14".toList = some (314, 0)) ∧
    (numeric_scorer ⟨[("question".toList, "q".toList)], [("amount".toList, "3.14".toList)]⟩
      ⟨[("amount".toList, "3,14".toList)], []⟩ (1 / 1000000) = false) := by
  refine ⟨?_, by decide, ?_⟩
  · rw [show numeric_scorer ⟨[("question".toList, "q".toList)],
        [("amount".toList, "1234.56".toList)]⟩
        ⟨[("amount".toList, "1,234.56".toList)], []⟩ (1 / 1000000) =
      isclose (decimalToQ (123456, 2)) (decimalToQ (123456, 2)) (1 / 1000000) from rfl]
    unfold isclose decimalToQ
    rw [decide_eq_true_eq]
    norm_num
  · rw [show numeric_scorer ⟨[("question".toList, "q".toList)],
        [("amount".toList, "3.14".toList)]⟩
        ⟨[("amount".toList, "3,14".toList)], []⟩ (1 / 1000000) =
      isclose (decimalToQ (314, 2)) (decimalToQ (314, 0)) (1 / 1000000) from rfl]
    unfold isclose decimalToQ
    rw [decide_eq_false_iff_not, not_le]
    rw [abs_of_nonpos (by norm_num : (((314 : Int) : ℚ)) / 10 ^ 2 - ((314 : Int) : ℚ) / 10 ^ 0 ≤ 0)]
    rw [abs_of_nonneg (by norm_num : (0 : ℚ) ≤ ((314 : Int) : ℚ) / 10 ^ 2)]
    rw [abs_of_nonneg (by norm_num : (0 : ℚ) ≤ ((314 : Int) : ℚ) / 10 ^ 0)]
    rw [max_eq_right (by norm_num : (((314 : Int) : ℚ)) / 10 ^ 2 ≤ ((314 : Int) : ℚ) / 10 ^ 0)]
    norm_num

/-- C10: both registered scorers are total Bool-valued functions: with no
output fields on the example, with the output field missing from the
prediction, or (for the numeric scorer) with a value that does not parse
as a number, they return `False` instead of propagating an exception. -/
theorem c10_scorers_total :
    (∀ (ex : Example) (p : Prediction) (tol : ℚ), ex.outputs = [] →
      exact_match_scorer ex p = false ∧ numeric_scorer ex p tol = false) ∧
    (∀ (ex : Example) (p : Prediction) (tol : ℚ) (k v : Str) (rest : List (Str × Str)),
      ex.outputs = (k, v) :: rest → p.fields.lookup k = none →
      exact_match_scorer ex p = false ∧ numeric_scorer ex p tol = false) ∧
    (∀ (ex : Example) (p : Prediction) (tol : ℚ) (k v pv : Str) (rest : List (Str × Str)),
      ex.outputs = (k, v) :: rest → p.fields.lookup k = some pv →
      parse_numeric v = none ∨ parse_numeric pv = none →
      numeric_scorer ex p tol = false) := by
  refine ⟨?_, ?_, ?_⟩
  · intro ex p tol h
    unfold exact_match_scorer numeric_scorer
    rw [h]
    exact ⟨rfl, rfl⟩
  · intro ex p tol k v rest hout hlk
    unfold exact_match_scorer numeric_scorer
    rw [hout]
    simp [hlk]
  · intro ex p tol k v pv rest hout hlk hparse
    unfold numeric_scorer
    rw [hout]
    rcases hparse with hv | hpv
    · simp [hlk, hv]
    · rcases hv2 : parse_numeric v with _ | a <;> simp [hlk, hpv, hv2]

theorem c10_witness :
    (exact_match_scorer ⟨[("q".toList, "x".toList)], []⟩ ⟨[], []⟩ = false ∧
      numeric_scorer ⟨[("q".toList, "x".toList)], []⟩ ⟨[], []⟩ (1 / 1000000) = false) ∧
    (exact_match_scorer ⟨[], [("amount".toList, "1".toList)]⟩ ⟨[], []⟩ = false ∧
      numeric_scorer ⟨[], [("amount".toList, "1".toList)]⟩ ⟨[], []⟩ (1 / 1000000) = false) ∧
    (numeric_scorer ⟨[], [("amount".toList, "1".toList)]⟩
      ⟨[("amount".toList, "N/A".toList)], []⟩ (1 / 1000000) = false) :=
  ⟨c10_scorers_total.1 _ _ _ rfl,
   c10_scorers_total.2.1 _ _ _ "amount".toList "1".toList [] rfl rfl,
   c10_scorers_total.2.2 _ _ _ "amount".toList "1".toList "N/A".toList [] rfl rfl
     (Or.inr (by decide))⟩


/-- Outcome dictionary `{"is_valid": ..., "score": ...}` returned by
`SampleValidationStrategy.forward`. -/
structure SampleResult where
  is_valid : Bool
  score : ℚ
deriving DecidableEq

/-- `FullValidationStrategy.forward`: the candidate passes iff every
dataset example scores correct (the source short-circuits on the first
failure, which over a pure evaluator equals the conjunction). -/
def FullValidationStrategy.forward (candidate_prompt : Str)
    (evaluator : Str → Example → Prediction) (scorer : Example → Prediction → Bool)
    (dataset : List Example) : Bool :=
  dataset.all fun ex => scorer ex (evaluator candidate_prompt ex)

/-- `BatchedTrainingSetValidationStrategy.forward`: an empty dataset
trivially passes; otherwise a random batch of `min(batch_size, |dataset|)`
examples is drawn (`random.sample`, modelled by the `sample` parameter)
and must pass in full. -/
def BatchedTrainingSetValidationStrategy.forward (batch_size : Nat)
    (sample : List Example → Nat → List Example)
    (candidate_prompt : Str) (evaluator : Str → Example → Prediction)
    (scorer : Example → Prediction → Bool) (dataset : List Example) : Bool :=
  if dataset.isEmpty then true
  else
    (sample dataset (min batch_size dataset.length)).all fun ex =>
      scorer ex (evaluator candidate_prompt ex)

/-- `SampleValidationStrategy.forward`: take the whole dataset when it is
smaller than `sample_size`, else a random sample (the `sample` parameter);
vacuously accept an empty sample with score 1.0; otherwise accept iff the
fraction of passing samples reaches `threshold`. -/
def SampleValidationStrategy.forward (sample_size : Nat) (threshold : ℚ)
    (sample : List Example → Nat → List Example)
    (candidate_prompt : Str) (evaluator : Str → Example → Prediction)
    (scorer : Example → Prediction → Bool) (dataset : List Example) : SampleResult :=
  let sample_set := if dataset.length < sample_size then dataset else sample dataset sample_size
  if sample_set.isEmpty then ⟨true, 1⟩
  else
    let score :=
      ((sample_set.filter fun ex => scorer ex (evaluator candidate_prompt ex)).length : ℚ) /
        (sample_set.length : ℚ)
    ⟨decide (score ≥ threshold), score⟩

/-- `SingleExampleValidationStrategy.forward`: requires the failing
`example` in the context (`ValueError` otherwise), ignores the dataset,
and reports the scorer's verdict on that one example under the candidate
prompt. -/
def SingleExampleValidationStrategy.forward (candidate_prompt : Str)
    (evaluator : Str → Example → Prediction) (scorer : Example → Prediction → Bool)
    (dataset : List Example) (example? : Option Example) : Except Str Bool :=
  match example? with
  | none => .error "SingleExampleValidationStrategy requires 'example' in kwargs.".toList
  | some ex => .ok (scorer ex (evaluator candidate_prompt ex))

/-- `NoValidationStrategy.forward`: always accepts. -/
def NoValidationStrategy.forward (candidate_prompt : Str)
    (evaluator : Str → Example → Prediction) (scorer : Example → Prediction → Bool)
    (dataset : List Example) : Bool :=
  true

/-- C3 counterexample: `single_example` does not vacuously accept on an
empty dataset — it ignores the dataset and reports the scorer's verdict on
the supplied example, here a rejection. -/
theorem c3_counterexample :
    SingleExampleValidationStrategy.forward "p".toList (fun _ _ => ⟨[], []⟩)
      (fun _ _ => false) [] (some ⟨[], [("amount".toList, "1".toList)]⟩) = .ok false :=
  rfl

/-- C3 (amended): the `full`, `batched`, `sample` and `none` strategies
accept an empty dataset (returning `True`, resp. is_valid true with score
1.0) without raising; `single_example` ignores the dataset entirely and,
given the example in context, returns the scorer's verdict on it — so with
an empty dataset it accepts only when that example scores correct (and it
does not raise when the example is supplied). -/
theorem c3_validation_vacuity_amended :
    (∀ cp ev sc, FullValidationStrategy.forward cp ev sc [] = true) ∧
    (∀ bs sample cp ev sc,
      BatchedTrainingSetValidationStrategy.forward bs sample cp ev sc [] = true) ∧
    (∀ ss th sample cp ev sc, 0 < ss →
      SampleValidationStrategy.forward ss th sample cp ev sc [] = ⟨true, 1⟩) ∧
    (∀ cp ev sc, NoValidationStrategy.forward cp ev sc [] = true) ∧
    (∀ cp ev sc ex, SingleExampleValidationStrategy.forward cp ev sc [] (some ex) =
      .ok (sc ex (ev cp ex))) := by
  refine ⟨fun _ _ _ => rfl, fun _ _ _ _ _ => rfl, ?_, fun _ _ _ => rfl, fun _ _ _ _ => rfl⟩
  intro ss th sample cp ev sc hss
  unfold SampleValidationStrategy.forward
  simp [hss]

theorem c3_witness :
    SampleValidationStrategy.forward 3 1 (fun d _ => d) "p".toList
      (fun _ _ => ⟨[], []⟩) (fun _ _ => false) [] = ⟨true, 1⟩ :=
  c3_validation_vacuity_amended.2.2.1 3 1 (fun d _ => d) "p".toList
    (fun _ _ => ⟨[], []⟩) (fun _ _ => false) (by decide)


/-- `Config` from `models.py`: construction-time settings (source defaults:
5, 0.0, 8). -/
structure Config where
  max_refine_iters : Nat
  temperature : ℚ
  parallel_workers : Nat

/-- Output of one `Refiner` call as consumed by the orchestrator:
`target_block`, a raw `operation` string, and `content`. -/
structure RefinerOut where
  target_block : Str
  operation : Str
  content : Str

/-- A validation strategy's return value as treated by `optimize` (lines
163-168 of `optimizer.py`): either a plain bool or a dict whose
`is_valid` key may be absent (defaulting to `False`). -/
inductive ValidationResult
  | ofBool (b : Bool)
  | ofDict (is_valid : Option Bool) (score : Option ℚ)

/-- The `is_valid` extraction performed by `optimize`. -/
def ValidationResult.isValid : ValidationResult → Bool
  | .ofBool b => b
  | .ofDict iv _ => iv.getD false

/-- The callback hooks of `callback/base.py`; a run's observable behaviour
is the ordered list of hook invocations. -/
inductive CbEvent
  | run_start
  | refinement_start
  | validation_start
  | validation_end
  | merge_success
  | merge_failure
  | refinement_end
  | run_end
deriving DecidableEq

/-- The collaborators `PromptOptimizer.optimize` drives, as black-box pure
functions: the Evaluator (one model call per invocation), the Refiner (one
model call; its inputs are all derived from the current prompt, the
failing example and the per-example history), the merger strategy chosen
at construction, the validation strategy chosen at construction (called
with the candidate, the dataset and the current example), and the resolved
scorer. -/
structure OptDeps where
  evaluator : Str → Example → Prediction
  refiner : Str → Example → List Str → RefinerOut
  merger : Str → PromptPatch → Except Str Str
  validator : Str → List Example → Example → ValidationResult
  scorer : Example → Prediction → Bool

/-- The history line appended on a rejected attempt (`optimizer.py` lines
184-187; the source interpolates the example index `i`, not the attempt
number). -/
def describeFailedAttempt (i : Nat) (patch : PromptPatch) : Str :=
  "Failed Attempt ".toList ++ (Nat.repr (i + 1)).toList ++ ": Operation: ".toList ++
    patch.operation.value ++ ", Target: '".toList ++ patch.target_block ++
    "', Content: '".toList ++ patch.content ++ "'".toList

/-- One iteration of the retry loop in `PromptOptimizer.optimize` (lines
107-190): whether the candidate was accepted, the prompt and history after
the iteration, and the callback events emitted.  `Except.error` models the
exceptions that propagate out of `optimize` uncaught: the IndexError on an
example without output fields, the `PatchOperation` ValueError on an
unrecognized operation, and a merger error. -/
def refineAttempt (deps : OptDeps) (dataset : List Example) (ex : Example)
    (i : Nat) (prompt : Str) (history : List Str) :
    Except Str (Bool × Str × List Str × List CbEvent) :=
  if ex.outputs.isEmpty then
    .error "IndexError: list index out of range".toList
  else
    let refiner_output := deps.refiner prompt ex history
    match PatchOperation.ofString refiner_output.operation with
    | .error e => .error e
    | .ok op =>
      let patch : PromptPatch := ⟨refiner_output.target_block, op, refiner_output.content⟩
      match deps.merger prompt patch with
      | .error e => .error e
      | .ok candidate_prompt =>
        if (deps.validator candidate_prompt dataset ex).isValid then
          .ok (true, candidate_prompt, history,
            [.refinement_start, .validation_start, .validation_end, .merge_success])
        else
          .ok (false, prompt, history ++ [describeFailedAttempt i patch],
            [.refinement_start, .validation_start, .validation_end, .merge_failure,
              .refinement_end])

/-- The retry loop `for refine_iter in range(max_refine_iters)` for one
failing example; `break` on acceptance. -/
def refineLoop (deps : OptDeps) (dataset : List Example) (ex : Example)
    (i : Nat) : Nat → Str → List Str → Except Str (Str × List CbEvent)
  | 0, prompt, _ => .ok (prompt, [])
  | iters + 1, prompt, history =>
    match refineAttempt deps dataset ex i prompt history with
    | .error e => .error e
    | .ok (accepted, prompt', history', evs) =>
      if accepted then .ok (prompt', evs)
      else
        match refineLoop deps dataset ex i iters prompt' history' with
        | .error e => .error e
        | .ok (finalPrompt, evs') => .ok (finalPrompt, evs ++ evs')

/-- The per-example outer loop of `optimize` (lines 86-190): evaluate, and
refine only the failing examples. -/
def optimizeGo (deps : OptDeps) (cfg : Config) (dataset : List Example) :
    List Example → Nat → Str → Except Str (Str × List CbEvent)
  | [], _, prompt => .ok (prompt, [])
  | ex :: rest, i, prompt =>
    if deps.scorer ex (deps.evaluator prompt ex) then
      optimizeGo deps cfg dataset rest (i + 1) prompt
    else
      match refineLoop deps dataset ex i cfg.max_refine_iters prompt [] with
      | .error e => .error e
      | .ok (prompt', evs) =>
        match optimizeGo deps cfg dataset rest (i + 1) prompt' with
        | .error e => .error e
        | .ok (finalPrompt, evs') => .ok (finalPrompt, evs ++ evs')

/-- `PromptOptimizer.optimize` (lines 53-195): the per-example loop over
the whole dataset, bracketed by the `run_start`/`run_end` hooks.  Returns
the final accepted prompt together with the run's ordered callback events;
`Except.error` models an uncaught exception aborting the run. -/
def optimize (deps : OptDeps) (cfg : Config) (dataset : List Example)
    (initial_prompt : Str) : Except Str (Str × List CbEvent) :=
  match optimizeGo deps cfg dataset dataset 0 initial_prompt with
  | .error e => .error e
  | .ok (finalPrompt, evs) => .ok (finalPrompt, .run_start :: evs ++ [.run_end])

/-- A dataset example used by the concrete runs below. -/
def exampleC : Example := ⟨[("file".toList, "f".toList)], [("amount".toList, "42".toList)]⟩

/-- Collaborators for a run whose Refiner emits the unrecognized operation
`delete` on a failing example. -/
def c2Deps : OptDeps where
  evaluator := fun _ _ => ⟨[("amount".toList, "0".toList)], []⟩
  refiner := fun _ _ _ => ⟨"### Heuristics".toList, "delete".toList, "- H2".toList⟩
  merger := BlockBasedMerger.call
  validator := fun _ _ _ => .ofBool false
  scorer := fun _ _ => false

/-- C2: `PromptOptimizer.optimize` does NOT catch the malformed-patch
condition: `PatchOperation(refiner_output.operation)` raises `ValueError`
for an unrecognized operation and no handler exists in `optimize`, so the
whole run aborts — the rejected patch is not added to the history and no
further attempt proceeds, contradicting the documented intent that a
malformed patch be treated as a failed attempt. -/
theorem c2_malformed_patch_aborts :
    optimize c2Deps ⟨5, 0, 8⟩ [exampleC] "### Heuristics\n- H1".toList =
      .error ("'".toList ++ "delete".toList ++ "' is not a valid PatchOperation".toList) :=
  rfl

/-- Collaborators for a run in which the model can never fix the failing
example: the scorer always rejects and validation always rejects. -/
def c1Deps : OptDeps where
  evaluator := fun _ _ => ⟨[("amount".toList, "0".toList)], []⟩
  refiner := fun _ _ _ => ⟨"### Heuristics".toList, "append".toList, "- H2".toList⟩
  merger := BlockBasedMerger.call
  validator := fun _ _ _ => .ofBool false
  scorer := fun _ _ => false

/-- C1 counterexample to the "recorded as flagged" part: the complete
observable outcome of a `PromptOptimizer.optimize` run on an unfixable
example with `max_refine_iters = 2` is exactly this prompt/event pair —
two refinement attempts, then the run ends.  The result carries no record
of the example being flagged: the return value is only the final prompt
and the callback vocabulary has no flagging hook. -/
theorem c1_counterexample :
    optimize c1Deps ⟨2, 0, 8⟩ [exampleC] "### Heuristics\n- H1".toList =
      .ok ("### Heuristics\n- H1".toList,
        [.run_start,
         .refinement_start, .validation_start, .validation_end, .merge_failure, .refinement_end,
         .refinement_start, .validation_start, .validation_end, .merge_failure, .refinement_end,
         .run_end]) :=
  rfl

/-- Collaborators for a run whose first refinement attempt is accepted. -/
def c8Deps : OptDeps where
  evaluator := fun _ _ => ⟨[("amount".toList, "0".toList)], []⟩
  refiner := fun _ _ _ => ⟨"### Heuristics".toList, "append".toList, "- H2".toList⟩
  merger := BlockBasedMerger.call
  validator := fun _ _ _ => .ofBool true
  scorer := fun _ _ => false

/-- C8 counterexample: when the candidate is accepted, `optimize` breaks
out of the retry loop right after `merge_success` and never invokes the
`refinement_end` hook for that attempt — one attempt ran
(`refinement_start` occurs) yet `refinement_end` is absent from the run's
events. -/
theorem c8_counterexample :
    (optimize c8Deps ⟨5, 0, 8⟩ [exampleC] "### Heuristics\n- H1".toList =
      .ok ("### Heuristics\n- H1\n- H2".toList,
        [.run_start, .refinement_start, .validation_start, .validation_end,
         .merge_success, .run_end])) ∧
    ([CbEvent.run_start, .refinement_start, .validation_start, .validation_end,
        .merge_success, .run_end].count .refinement_start = 1) ∧
    ([CbEvent.run_start, .refinement_start, .validation_start, .validation_end,
        .merge_success, .run_end].count .refinement_end = 0) :=
  ⟨rfl, by decide, by decide⟩


theorem refineAttempt_reject (deps : OptDeps) (dataset : List Example) (ex : Example)
    (i : Nat) (prompt : Str) (history : List Str)
    (hout : ex.outputs.isEmpty = false)
    (hop : ∃ op, PatchOperation.ofString (deps.refiner prompt ex history).operation = .ok op)
    (hm : ∀ p patch, ∃ r, deps.merger p patch = .ok r)
    (hv : ∀ p e, (deps.validator p dataset e).isValid = false) :
    ∃ h', refineAttempt deps dataset ex i prompt history =
      .ok (false, prompt, h',
        [.refinement_start, .validation_start, .validation_end, .merge_failure,
          .refinement_end]) := by
  obtain ⟨op, hop⟩ := hop
  obtain ⟨r, hr⟩ := hm prompt ⟨(deps.refiner prompt ex history).target_block, op,
    (deps.refiner prompt ex history).content⟩
  refine ⟨history ++ [describeFailedAttempt i ⟨(deps.refiner prompt ex history).target_block,
    op, (deps.refiner prompt ex history).content⟩], ?_⟩
  simp only [refineAttempt, hout, hop, hr, hv, Bool.false_eq_true, if_false]

theorem refineLoop_reject (deps : OptDeps) (dataset : List Example) (ex : Example) (i : Nat)
    (hout : ex.outputs.isEmpty = false)
    (hop : ∀ p h, ∃ op, PatchOperation.ofString (deps.refiner p ex h).operation = .ok op)
    (hm : ∀ p patch, ∃ r, deps.merger p patch = .ok r)
    (hv : ∀ p e, (deps.validator p dataset e).isValid = false) :
    ∀ (n : Nat) (prompt : Str) (history : List Str),
      refineLoop deps dataset ex i n prompt history =
        .ok (prompt, (List.replicate n
          [CbEvent.refinement_start, .validation_start, .validation_end, .merge_failure,
            .refinement_end]).join) := by
  intro n
  induction n with
  | zero => intro prompt history; simp [refineLoop]
  | succ k ih =>
    intro prompt history
    obtain ⟨h', hA⟩ :=
      refineAttempt_reject deps dataset ex i prompt history hout (hop prompt history) hm hv
    simp only [refineLoop, hA, Bool.false_eq_true, if_false, ih]
    simp [List.replicate_succ]

theorem optimizeGo_reject (deps : OptDeps) (cfg : Config) (dataset : List Example)
    (hs : ∀ e pred, deps.scorer e pred = false)
    (hop : ∀ p e h, ∃ op, PatchOperation.ofString (deps.refiner p e h).operation = .ok op)
    (hm : ∀ p patch, ∃ r, deps.merger p patch = .ok r)
    (hv : ∀ p e, (deps.validator p dataset e).isValid = false) :
    ∀ (l : List Example) (i : Nat) (prompt : Str), (∀ e ∈ l, e.outputs.isEmpty = false) →
      optimizeGo deps cfg dataset l i prompt =
        .ok (prompt, (List.replicate l.length ((List.replicate cfg.max_refine_iters
          [CbEvent.refinement_start, .validation_start, .validation_end, .merge_failure,
            .refinement_end]).join)).join) := by
  intro l
  induction l with
  | nil => intro i prompt _; simp [optimizeGo]
  | cons e rest ih =>
    intro i prompt hl
    have hrest : ∀ x ∈ rest, x.outputs.isEmpty = false := fun x hx => hl x (by simp [hx])
    simp only [optimizeGo, hs, Bool.false_eq_true, if_false,
      refineLoop_reject deps dataset e i (hl e (List.mem_cons_self e rest))
        (fun p h => hop p e h) hm hv,
      ih (i + 1) prompt hrest]
    simp [List.replicate_succ]

theorem count_join_replicate (k : Nat) (L : List CbEvent) (e : CbEvent) :
    ((List.replicate k L).join).count e = k * L.count e := by
  induction k with
  | zero => simp
  | succ k ih =>
    simp [List.replicate_succ, List.count_append, ih]
    ring

/-- C1 (amended): on a run over examples the model capability can never
fix (the scorer always rejects and every candidate is rejected by
validation), `PromptOptimizer.optimize` performs exactly
`max_refine_iters` refinement attempts per example, never more, completes
the whole run (`run_end` is the last event), never commits a candidate
(`merge_success` never fires) and never changes — in particular never
reverts — the prompt, returning the initial prompt.  No flag record is
produced: the run's entire observable outcome is this prompt/event pair
(flagged-example recording exists only in the extended
`InvoicePromptOptimiser` orchestrator, not in `PromptOptimizer`). -/
theorem c1_retry_bound_amended (deps : OptDeps) (cfg : Config) (dataset : List Example)
    (initial_prompt : Str)
    (hs : ∀ e pred, deps.scorer e pred = false)
    (hv : ∀ p e, (deps.validator p dataset e).isValid = false)
    (hout : ∀ e ∈ dataset, e.outputs.isEmpty = false)
    (hop : ∀ p e h, ∃ op, PatchOperation.ofString (deps.refiner p e h).operation = .ok op)
    (hm : ∀ p patch, ∃ r, deps.merger p patch = .ok r) :
    ∃ tr, optimize deps cfg dataset initial_prompt = .ok (initial_prompt, tr) ∧
      tr.count .refinement_start = dataset.length * cfg.max_refine_iters ∧
      tr.count .merge_success = 0 ∧
      tr.getLast? = some .run_end := by
  refine ⟨CbEvent.run_start :: (List.replicate dataset.length
      ((List.replicate cfg.max_refine_iters
        [CbEvent.refinement_start, .validation_start, .validation_end, .merge_failure,
          .refinement_end]).join)).join ++ [CbEvent.run_end], ?_, ?_, ?_, ?_⟩
  · unfold optimize
    rw [optimizeGo_reject deps cfg dataset hs hop hm hv dataset 0 initial_prompt hout]
  · have h1 : ([CbEvent.refinement_start, .validation_start, .validation_end, .merge_failure,
        .refinement_end] : List CbEvent).count .refinement_start = 1 := by decide
    simp [List.count_cons, List.count_append, count_join_replicate, h1]
  · have h0 : ([CbEvent.refinement_start, .validation_start, .validation_end, .merge_failure,
        .refinement_end] : List CbEvent).count .merge_success = 0 := by decide
    simp [List.count_cons, List.count_append, count_join_replicate, h0]
  · exact getLast?_cons_append _ _ _

def c1WitnessDeps : OptDeps where
  evaluator := fun _ _ => ⟨[("amount".toList, "0".toList)], []⟩
  refiner := fun _ _ _ => ⟨"### Heuristics".toList, "append".toList, "- H2".toList⟩
  merger := fun p _ => .ok p
  validator := fun _ _ _ => .ofBool false
  scorer := fun _ _ => false

theorem c1_witness :
    ∃ tr, optimize c1WitnessDeps ⟨3, 0, 8⟩ [exampleC] "p0".toList = .ok ("p0".toList, tr) ∧
      tr.count .refinement_start = [exampleC].length * 3 ∧
      tr.count .merge_success = 0 ∧
      tr.getLast? = some .run_end :=
  c1_retry_bound_amended c1WitnessDeps ⟨3, 0, 8⟩ [exampleC] "p0".toList
    (fun _ _ => rfl) (fun _ _ => rfl) (by decide)
    (fun _ _ _ => ⟨.APPEND, rfl⟩) (fun p _ => ⟨p, rfl⟩)

theorem refineAttempt_count_re_mf (deps : OptDeps) (dataset : List Example) (ex : Example)
    (i : Nat) (prompt : Str) (history : List Str) (acc : Bool) (p' : Str)
    (h' : List Str) (evs : List CbEvent)
    (h : refineAttempt deps dataset ex i prompt history = .ok (acc, p', h', evs)) :
    evs.count .refinement_end = evs.count .merge_failure := by
  simp only [refineAttempt] at h
  split at h
  · exact absurd h (by simp)
  · split at h
    · exact absurd h (by simp)
    · split at h
      · exact absurd h (by simp)
      · split at h
        · simp only [Except.ok.injEq, Prod.mk.injEq] at h
          obtain ⟨-, -, -, h4⟩ := h
          subst h4
          decide
        · simp only [Except.ok.injEq, Prod.mk.injEq] at h
          obtain ⟨-, -, -, h4⟩ := h
          subst h4
          decide

theorem refineLoop_count_re_mf (deps : OptDeps) (dataset : List Example) (ex : Example)
    (i : Nat) :
    ∀ (n : Nat) (prompt : Str) (history : List Str) (p' : Str) (evs : List CbEvent),
      refineLoop deps dataset ex i n prompt history = .ok (p', evs) →
      evs.count .refinement_end = evs.count .merge_failure := by
  intro n
  induction n with
  | zero =>
    intro prompt history p' evs h
    simp only [refineLoop, Except.ok.injEq, Prod.mk.injEq] at h
    obtain ⟨-, h2⟩ := h
    subst h2
    rfl
  | succ k ih =>
    intro prompt history p' evs h
    simp only [refineLoop] at h
    split at h
    · exact absurd h (by simp)
    · rename_i acc p2 h2 evs1 heqA
      split at h
      · simp only [Except.ok.injEq, Prod.mk.injEq] at h
        obtain ⟨-, h4⟩ := h
        subst h4
        exact refineAttempt_count_re_mf deps dataset ex i prompt history acc p2 h2 evs1 heqA
      · split at h
        · exact absurd h (by simp)
        · rename_i fp evs2 heqB
          simp only [Except.ok.injEq, Prod.mk.injEq] at h
          obtain ⟨-, h4⟩ := h
          subst h4
          rw [List.count_append, List.count_append,
            refineAttempt_count_re_mf deps dataset ex i prompt history acc p2 h2 evs1 heqA,
            ih p2 h2 fp evs2 heqB]

theorem optimizeGo_count_re_mf (deps : OptDeps) (cfg : Config) (dataset : List Example) :
    ∀ (l : List Example) (i : Nat) (prompt : Str) (p' : Str) (evs : List CbEvent),
      optimizeGo deps cfg dataset l i prompt = .ok (p', evs) →
      evs.count .refinement_end = evs.count .merge_failure := by
  intro l
  induction l with
  | nil =>
    intro i prompt p' evs h
    simp only [optimizeGo, Except.ok.injEq, Prod.mk.injEq] at h
    obtain ⟨-, h2⟩ := h
    subst h2
    rfl
  | cons e rest ih =>
    intro i prompt p' evs h
    simp only [optimizeGo] at h
    split at h
    · exact ih (i + 1) prompt p' evs h
    · split at h
      · exact absurd h (by simp)
      · rename_i p2 evs1 heqL
        split at h
        · exact absurd h (by simp)
        · rename_i fp evs2 heqG
          simp only [Except.ok.injEq, Prod.mk.injEq] at h
          obtain ⟨-, h4⟩ := h
          subst h4
          rw [List.count_append, List.count_append,
            refineLoop_count_re_mf deps dataset e i cfg.max_refine_iters prompt [] p2 evs1 heqL,
            ih (i + 1) p2 fp evs2 heqG]

/-- C8 (amended): in every completed `PromptOptimizer.optimize` run, the
`refinement_end` hook fires exactly once per rejected attempt — its count
in the run's events equals the `merge_failure` count.  On an accepted
attempt the orchestrator notifies `merge_success` and breaks out of the
retry loop without invoking `refinement_end`. -/
theorem c8_refinement_end_amended (deps : OptDeps) (cfg : Config) (dataset : List Example)
    (initial_prompt : Str) (p : Str) (tr : List CbEvent)
    (h : optimize deps cfg dataset initial_prompt = .ok (p, tr)) :
    tr.count .refinement_end = tr.count .merge_failure := by
  unfold optimize at h
  cases hG : optimizeGo deps cfg dataset dataset 0 initial_prompt with
  | error e => rw [hG] at h; exact absurd h (by simp)
  | ok t =>
    obtain ⟨q, evs⟩ := t
    rw [hG] at h
    simp only [Except.ok.injEq, Prod.mk.injEq] at h
    obtain ⟨-, h2⟩ := h
    subst h2
    have hc := optimizeGo_count_re_mf deps cfg dataset dataset 0 initial_prompt q evs hG
    simp [List.count_cons, List.count_append, hc]

theorem c8_witness :
    ([CbEvent.run_start, .refinement_start, .validation_start, .validation_end,
        .merge_success, .run_end] : List CbEvent).count .refinement_end =
      ([CbEvent.run_start, .refinement_start, .validation_start, .validation_end,
        .merge_success, .run_end] : List CbEvent).count .merge_failure :=
  c8_refinement_end_amended c8Deps ⟨5, 0, 8⟩ [exampleC] "### Heuristics\n- H1".toList
    "### Heuristics\n- H1\n- H2".toList
    [CbEvent.run_start, .refinement_start, .validation_start, .validation_end,
      .merge_success, .run_end] rfl

end DspyOpt
